import Mathlib

/-!
Verification development for the EasyFlix command API (`EFAPI.py`).

The durable SQLite state is embedded shallowly: each table row becomes a
structure, the database becomes lists of rows, and each API operation of
`EFAPI_Commands` becomes a Lean function from the old state to the new
state together with an `Except`-style outcome mirroring the success /
failure message of the Python method.  Monetary amounts are modelled as
rationals; the parsed comma-separated `Shows` column is modelled as the
list of title identifiers it denotes; dates and timestamps are opaque
naturals passed in explicitly (the Python code reads `date.today()` and
`datetime.now()`).
-/

/-- A row of the CUSTOMERS table.  `shows` is the parsed form of the
comma-separated `Shows` text column. -/
structure Customer where
  user_id : Nat
  username : String
  email : String
  password_hash : String
  salt : String
  subscription_level : String
  total_spent : ℚ
  favourite_genre : String
  shows : List Nat
  marketing_opt_in : Bool
deriving Repr, DecidableEq

/-- A row of the SHOWS table.  `cost_to_buy` is nullable in the schema. -/
structure ShowRow where
  show_id : Nat
  name : String
  release_date : String
  rating : String
  director : String
  length : Nat
  genre : String
  access_group : String
  cost_to_buy : Option ℚ
deriving Repr, DecidableEq

/-- A row of the BUYS table. -/
structure BuyRow where
  user_id : Nat
  show_id : Nat
  buy_date : Nat
  cost : ℚ
deriving Repr, DecidableEq

/-- A row of the STATISTICS table. -/
structure StatRow where
  date : Nat
  total_shows_bought : Nat
  total_subscriptions : Nat
  premium_subscriptions : Nat
  basic_subscriptions : Nat
  total_users : Nat
  last_updated : Nat
deriving Repr, DecidableEq

/-- A row of the FINANCIALS table. -/
structure FinRow where
  date : Nat
  total_revenue_buys : ℚ
  total_revenue_subscriptions : ℚ
  premium_subscription_revenue : ℚ
  basic_subscription_revenue : ℚ
  total_combined_revenue : ℚ
  last_updated : Nat
deriving Repr, DecidableEq

/-- The durable store: the five logical tables, plus the rowid counter
that SQLite uses to produce `cursor.lastrowid` for CUSTOMERS inserts. -/
structure DB where
  customers : List Customer
  shows : List ShowRow
  buys : List BuyRow
  statistics : List StatRow
  financials : List FinRow
  next_user_id : Nat
deriving Repr, DecidableEq

/-- Outcome of an API call: the success payload, or the failure message
carried by the `success = false` envelope. -/
inductive ApiOutcome (α : Type) where
  | ok : α → ApiOutcome α
  | err : String → ApiOutcome α
deriving Repr, DecidableEq

/-- `SELECT ... FROM CUSTOMERS WHERE User_ID = ?` with `fetchone`:
the first row matching the id. -/
def findCustomer (db : DB) (uid : Nat) : Option Customer :=
  db.customers.find? (fun c => c.user_id == uid)

/-- `SELECT ... FROM SHOWS WHERE Show_ID = ?` with `fetchone`. -/
def findShow (db : DB) (sid : Nat) : Option ShowRow :=
  db.shows.find? (fun s => s.show_id == sid)

/-- `UPDATE CUSTOMERS SET ... WHERE User_ID = ?`: rewrite every row
whose id matches. -/
def updateCustomer (db : DB) (uid : Nat) (f : Customer → Customer) : DB :=
  { db with customers := db.customers.map (fun c => if c.user_id == uid then f c else c) }

/-- Subscription cost computed by `create_user`
(`30.00 if subscription_level == "Basic" else 80.00`). -/
def subscription_cost (level : String) : ℚ :=
  if level = "Basic" then 30 else 80

/-- `create_user` (EFAPI.py lines 324-360).  The random salt from
`os.urandom` and the salted-hash function `_hash_password` (SHA-256 of
`password + salt`) enter as explicit parameters; everything else follows
the SQL of the method: a conflict check on username OR email, then an
insert of the new row with `Total_Spent` set to the subscription cost,
empty favourite genre, empty shows, and the given opt-in flag.  Returns
the new state plus `(user_id, charged)` on success. -/
def create_user (db : DB) (username email password level : String)
    (marketing_opt_in : Bool) (salt : String)
    (hashFn : String → String → String) : DB × ApiOutcome (Nat × ℚ) :=
  if db.customers.any (fun c => c.username == username || c.email == email) then
    (db, .err "Username or email already exists")
  else
    let password_hash := hashFn password salt
    let cost := subscription_cost level
    let row : Customer :=
      { user_id := db.next_user_id, username := username, email := email,
        password_hash := password_hash, salt := salt,
        subscription_level := level, total_spent := cost,
        favourite_genre := "", shows := [], marketing_opt_in := marketing_opt_in }
    ({ db with customers := db.customers ++ [row],
               next_user_id := db.next_user_id + 1 },
     .ok (db.next_user_id, cost))

/-- `authenticate_user` (EFAPI.py lines 285-322): look up by username
(`fetchone`), recompute the salted hash, compare with the stored hash. -/
def authenticate_user (db : DB) (username password : String)
    (hashFn : String → String → String) : ApiOutcome Customer :=
  match db.customers.find? (fun c => c.username == username) with
  | none => .err "User not found"
  | some c =>
    if hashFn password c.salt = c.password_hash then .ok c
    else .err "Invalid credentials"

/-- `update_subscription` (EFAPI.py lines 558-594): look up the current
level; charge 80 exactly when the stored level is `"Basic"` and the
requested level is `"Premium"`, otherwise 0; always write the new level
and add the charge to `Total_Spent` when the user exists.  Returns the
`charged` payload. -/
def update_subscription (db : DB) (uid : Nat) (level : String) :
    DB × ApiOutcome ℚ :=
  match findCustomer db uid with
  | none => (db, .err "User not found")
  | some c =>
    let charge : ℚ :=
      if c.subscription_level = "Basic" ∧ level = "Premium" then 80 else 0
    (updateCustomer db uid (fun c0 =>
       { c0 with subscription_level := level,
                 total_spent := c0.total_spent + charge }),
     .ok charge)

/-- Charge computed by `add_show_to_user`: `cost = cost_to_buy or 0.0`
when the show is Premium and the subscriber Basic, else `0.0`.  The
Python `or` collapses a NULL (and a stored 0) to `0.0`, numerically
`Option.getD 0`. -/
def acquisition_cost (s : ShowRow) (c : Customer) : ℚ :=
  if s.access_group = "Premium" ∧ c.subscription_level = "Basic" then
    s.cost_to_buy.getD 0
  else 0

/-- `add_show_to_user` (EFAPI.py lines 623-695): look up user then show
(each `NotFound` on a missing row), fail on duplicate membership before
any write, otherwise append the show id to the owned list, add the
charge to `Total_Spent`, and insert a BUYS row dated `today` exactly
when the charge is positive. -/
def add_show_to_user (db : DB) (uid sid : Nat) (today : Nat) :
    DB × ApiOutcome Unit :=
  match findCustomer db uid with
  | none => (db, .err "User not found")
  | some c =>
    match findShow db sid with
    | none => (db, .err "Show not found")
    | some s =>
      if sid ∈ c.shows then
        (db, .err "Show already added to your collection")
      else
        let cost := acquisition_cost s c
        let db1 := updateCustomer db uid (fun c0 =>
          { c0 with shows := c0.shows ++ [sid],
                    total_spent := c0.total_spent + cost })
        let db2 :=
          if 0 < cost then
            { db1 with buys := db1.buys ++
              [{ user_id := uid, show_id := sid, buy_date := today, cost := cost }] }
          else db1
        (db2, .ok ())

/-- `delete_show` (EFAPI.py lines 1179-1216): delete the BUYS rows of
the show, drop the id (first occurrence, Python `list.remove`) from the
owned list of every customer that holds it, delete the SHOWS row; when
no SHOWS row matched, the transaction is not committed and the
connection is closed, so the store is left unchanged. -/
def delete_show (db : DB) (sid : Nat) : DB × ApiOutcome Unit :=
  if db.shows.any (fun s => s.show_id == sid) then
    ({ db with
        buys := db.buys.filter (fun b => ¬ b.show_id = sid),
        customers := db.customers.map (fun c =>
          if c.shows ≠ [] ∧ sid ∈ c.shows then
            { c with shows := c.shows.erase sid }
          else c),
        shows := db.shows.filter (fun s => ¬ s.show_id = sid) },
     .ok ())
  else (db, .err "Show not found")

/-!  Aggregation engine: `_update_statistics_sync` (EFAPI.py lines 123-240). -/

/-- `SUM(CASE WHEN Subscription_Level = 'Premium' THEN 1 ELSE 0 END)`. -/
def premiumCount (db : DB) : Nat :=
  (db.customers.filter (fun c => c.subscription_level == "Premium")).length

/-- `SUM(CASE WHEN Subscription_Level = 'Basic' THEN 1 ELSE 0 END)`. -/
def basicCount (db : DB) : Nat :=
  (db.customers.filter (fun c => c.subscription_level == "Basic")).length

/-- `SELECT COALESCE(SUM(Cost), 0) FROM BUYS`. -/
def buysRevenue (db : DB) : ℚ :=
  (db.buys.map BuyRow.cost).sum

/-- The STATISTICS row computed for `today` from the current populations. -/
def mkStatRow (db : DB) (today now : Nat) : StatRow :=
  { date := today,
    total_shows_bought := db.buys.length,
    total_subscriptions := premiumCount db + basicCount db,
    premium_subscriptions := premiumCount db,
    basic_subscriptions := basicCount db,
    total_users := db.customers.length,
    last_updated := now }

/-- The FINANCIALS row computed for `today`: subscription revenue is the
flat rate times the live subscriber count per tier. -/
def mkFinRow (db : DB) (today now : Nat) : FinRow :=
  { date := today,
    total_revenue_buys := buysRevenue db,
    total_revenue_subscriptions := (basicCount db : ℚ) * 30 + (premiumCount db : ℚ) * 80,
    premium_subscription_revenue := (premiumCount db : ℚ) * 80,
    basic_subscription_revenue := (basicCount db : ℚ) * 30,
    total_combined_revenue := buysRevenue db + ((basicCount db : ℚ) * 30 + (premiumCount db : ℚ) * 80),
    last_updated := now }

/-- The `SELECT Date ... WHERE Date = ?` probe followed by either
`UPDATE ... WHERE Date = ?` or `INSERT`: overwrite the matching rows if
the date is present, else append the fresh row. -/
def upsertRow {α : Type} (dateOf : α → Nat) (today : Nat) (row : α)
    (l : List α) : List α :=
  if l.any (fun r => dateOf r == today) then
    l.map (fun r => if dateOf r == today then row else r)
  else l ++ [row]

/-- Genres of the shows a customer owns, in catalog order: the
`GROUP_CONCAT(s.Genre)` of the `LEFT JOIN SHOWS s ON INSTR(...)` match. -/
def genreList (db : DB) (c : Customer) : List String :=
  (db.shows.filter (fun s => c.shows.contains s.show_id)).map ShowRow.genre

/-- Python dict insertion order: the keys of `genre_counts`, i.e. the
distinct genres in first-occurrence order. -/
def firstOccKeys (l : List String) : List String :=
  l.foldl (fun acc g => if g ∈ acc then acc else acc ++ [g]) []

/-- `max(genre_counts, key=genre_counts.get)`: scan the keys keeping the
first key whose count is strictly larger than the current best. -/
def maxByCount (cnt : String → Nat) : List String → Option String
  | [] => none
  | k :: ks => some (ks.foldl (fun best k2 => if cnt best < cnt k2 then k2 else best) k)

/-- The favourite-genre computation of lines 206-218: drop blank genre
fragments, strip the rest, count occurrences, and take the maximum by
count (`none` when no countable genre remains, in which case no
`UPDATE ... Favourite_Genre` is issued). -/
def pickFavourite (genres : List String) : Option String :=
  let cleaned := (genres.filter (fun g => g.trim ≠ "")).map String.trim
  maxByCount (fun g => (cleaned.filter (fun x => x == g)).length)
    (firstOccKeys cleaned)

/-- Per-customer effect of the favourite-genre pass: only customers with
`Marketing_Opt_In = 1` and a non-empty `Shows` column are selected by
the query, and only those with a computable favourite are updated. -/
def favUpdate (db : DB) (c : Customer) : Customer :=
  if c.marketing_opt_in ∧ c.shows ≠ [] then
    match pickFavourite (genreList db c) with
    | some g => { c with favourite_genre := g }
    | none => c
  else c

/-- `_update_statistics_sync`: compute the aggregates from the current
populations, upsert today's STATISTICS and FINANCIALS rows, then run
the favourite-genre pass over the customers.  `today` and `now` stand
for `date.today()` and `datetime.now()`. -/
def update_statistics_sync (db : DB) (today now : Nat) : DB :=
  { db with
    statistics := upsertRow StatRow.date today (mkStatRow db today now) db.statistics,
    financials := upsertRow FinRow.date today (mkFinRow db today now) db.financials,
    customers := db.customers.map (favUpdate db) }

/-!  Command dispatcher (EFAPI.py `main`, lines 1250-1279). -/

/-- Result of resolving a command name against the API object. -/
inductive DispatchResult where
  | resolved : String → DispatchResult
  | unknownCmd : String → DispatchResult
deriving Repr, DecidableEq

/-- The attribute names of an `EFAPI_Commands` instance as defined in the
class body of EFAPI.py: every method (public API methods and the
underscore-prefixed internal helpers alike) plus the instance fields set
in `__init__`.  This is the set `getattr(api, command, None)` succeeds
on, Python object built-ins aside. -/
def efapiAttributeNames : List String :=
  ["db_path", "password", "encryption",
   "_verify_database", "_get_connection", "_hash_password", "_generate_salt",
   "_format_response", "_auto_update_statistics", "_update_statistics_sync",
   "update_statistics", "authenticate_admin", "authenticate_user",
   "create_user", "get_all_shows", "search_shows", "get_shows_by_access",
   "get_available_genres", "get_available_ratings", "get_user_info",
   "update_subscription", "update_marketing_opt_in", "add_show_to_user",
   "remove_show_from_user", "get_user_shows", "get_all_users",
   "get_users_by_subscription", "get_statistics", "get_finances",
   "delete_user", "change_password", "add_show", "update_show_access",
   "update_show_cost", "get_all_buys", "search_shows_by_genre",
   "update_user_favourite_genre", "delete_show"]

/-- The command surface the specification lists as the public
store/aggregation operations: the API methods `main` is meant to expose
(the non-underscore methods of the class). -/
def publicCommandNames : List String :=
  ["update_statistics", "authenticate_admin", "authenticate_user",
   "create_user", "get_all_shows", "search_shows", "get_shows_by_access",
   "get_available_genres", "get_available_ratings", "get_user_info",
   "update_subscription", "update_marketing_opt_in", "add_show_to_user",
   "remove_show_from_user", "get_user_shows", "get_all_users",
   "get_users_by_subscription", "get_statistics", "get_finances",
   "delete_user", "change_password", "add_show", "update_show_access",
   "update_show_cost", "get_all_buys", "search_shows_by_genre",
   "update_user_favourite_genre", "delete_show"]

/-- `method = getattr(api, command, None); if not method: UnknownCommand`
(lines 1258-1261 for the encrypted path and 1276-1279 for the plain
path): a reflective lookup over the object's attributes, resolving any
attribute name and failing only when no attribute matches. -/
def dispatch (command : String) : DispatchResult :=
  if command ∈ efapiAttributeNames then .resolved command
  else .unknownCmd command

/-!  Transport codec: `EncryptionManager` (EFAPI.py lines 24-61).  The
external `cryptography` primitives (Fernet over the PBKDF2-derived key)
and the Python `str`/`bytes` codecs are parameters; the repository's own
code is the composition below, and its round-trip property is proved
from the primitives' round-trip properties. -/

/-- The external primitives used by `EncryptionManager`: UTF-8 encode /
decode between strings and byte lists, the Fernet encrypt / decrypt pair
for the derived key, and URL-safe base64 encode / decode. -/
structure TransportPrims where
  strEncode : String → List Nat
  bytesDecode : List Nat → Option String
  fEncrypt : List Nat → List Nat
  fDecrypt : List Nat → Option (List Nat)
  b64encode : List Nat → List Nat
  b64decode : List Nat → Option (List Nat)

/-- `encrypt_data` (lines 42-50):
`base64.urlsafe_b64encode(f.encrypt(data.encode())).decode()`, with any
exception surfaced as the `EFAPIError` failure. -/
def encrypt_data (P : TransportPrims) (data : String) : ApiOutcome String :=
  match P.bytesDecode (P.b64encode (P.fEncrypt (P.strEncode data))) with
  | some token => .ok token
  | none => .err "Encryption failed"

/-- `decrypt_data` (lines 52-61):
`f.decrypt(base64.urlsafe_b64decode(encrypted_data.encode())).decode()`,
with any exception surfaced as the `EFAPIError` failure. -/
def decrypt_data (P : TransportPrims) (token : String) : ApiOutcome String :=
  match P.b64decode (P.strEncode token) with
  | none => .err "Decryption failed"
  | some cipherBytes =>
    match P.fDecrypt cipherBytes with
    | none => .err "Decryption failed"
    | some plainBytes =>
      match P.bytesDecode plainBytes with
      | some data => .ok data
      | none => .err "Decryption failed"

/-!  A concrete instantiation of the transport primitives, used to
witness the round-trip theorem: characters encode as their code points,
the decoder checks itself by re-encoding, the cipher is the identity,
and base64 is a unary byte code over the alphabet {1, 2}. -/

/-- Witness `str.encode`: code points of the characters. -/
def witStrEncode (s : String) : List Nat :=
  s.data.map Char.toNat

/-- Witness `bytes.decode`: map code points back to characters and
accept exactly when re-encoding reproduces the input. -/
def witBytesDecode (bs : List Nat) : Option String :=
  if (String.mk (bs.map Char.ofNat)).data.map Char.toNat = bs then
    some (String.mk (bs.map Char.ofNat))
  else none

/-- Unary code of one byte: `b` ones then a terminating two. -/
def encNat (b : Nat) : List Nat :=
  List.replicate b 1 ++ [2]

/-- Witness base64 encode: concatenated unary codes. -/
def witB64encode (bs : List Nat) : List Nat :=
  bs.foldr (fun b acc => encNat b ++ acc) []

/-- Decoder for the unary code, carrying the length of the pending run
of ones. -/
def witB64decodeAux : List Nat → Nat → Option (List Nat)
  | [], cnt => if cnt = 0 then some [] else none
  | 1 :: rest, cnt => witB64decodeAux rest (cnt + 1)
  | 2 :: rest, cnt => (witB64decodeAux rest 0).map (fun l => cnt :: l)
  | _ :: _, _ => none

/-- Witness base64 decode. -/
def witB64decode (bs : List Nat) : Option (List Nat) :=
  witB64decodeAux bs 0

/-- The concrete primitive pack for the round-trip witness. -/
def witPrims : TransportPrims where
  strEncode := witStrEncode
  bytesDecode := witBytesDecode
  fEncrypt := id
  fDecrypt := some
  b64encode := witB64encode
  b64decode := witB64decode

/-!  Concrete sample data used to witness the theorems below. -/

/-- A Premium catalog title priced at 5. -/
def sampleShow : ShowRow :=
  ⟨1, "T1", "2020-01-01", "PG", "Dir", 100, "Drama", "Premium", some 5⟩

/-- A Basic catalog title with NULL price. -/
def sampleShow2 : ShowRow :=
  ⟨2, "T2", "2021-01-01", "M", "Dir2", 90, "Comedy", "Basic", none⟩

/-- A Basic-tier account owning nothing, marketing consent off. -/
def sampleCustomer : Customer :=
  ⟨1, "alice", "alice@x.com", "h", "s0", "Basic", 30, "", [], false⟩

/-- A Premium-tier account already owning title 1. -/
def sampleOwner : Customer :=
  ⟨2, "bob", "bob@x.com", "h2", "s1", "Premium", 80, "", [1], true⟩

/-- A small store holding the sample rows. -/
def sampleDB : DB :=
  ⟨[sampleCustomer, sampleOwner], [sampleShow, sampleShow2], [], [], [], 3⟩

/-- A concrete stand-in for the salted-hash function in witnesses. -/
def witHash (password salt : String) : String :=
  password ++ salt

/-!  Helper lemmas. -/

/-- Rewriting the matching rows with an id-preserving function commutes
with the first-match lookup. -/
lemma find?_map_update (l : List Customer) (uid : Nat) (f : Customer → Customer)
    (hf : ∀ c, (f c).user_id = c.user_id) :
    (l.map (fun c => if c.user_id == uid then f c else c)).find?
        (fun c => c.user_id == uid) =
      (l.find? (fun c => c.user_id == uid)).map f := by
  induction l with
  | nil => rfl
  | cons a l ih =>
    by_cases ha : a.user_id == uid
    · simp [List.find?, ha, hf]
    · simp only [List.map_cons, if_neg ha, List.find?, ha, Bool.false_eq_true,
        if_false, ih]

/-- `updateCustomer` keeps every non-customer table. -/
lemma updateCustomer_frame (db : DB) (uid : Nat) (f : Customer → Customer) :
    (updateCustomer db uid f).shows = db.shows ∧
    (updateCustomer db uid f).buys = db.buys ∧
    (updateCustomer db uid f).statistics = db.statistics ∧
    (updateCustomer db uid f).financials = db.financials := by
  exact ⟨rfl, rfl, rfl, rfl⟩

/-- Lookup after `updateCustomer` with an id-preserving update. -/
lemma findCustomer_updateCustomer (db : DB) (uid : Nat) (f : Customer → Customer)
    (hf : ∀ c, (f c).user_id = c.user_id) :
    findCustomer (updateCustomer db uid f) uid = (findCustomer db uid).map f := by
  simpa [findCustomer, updateCustomer] using find?_map_update db.customers uid f hf

/-!  C1: acquisition charge, owned set, spend, purchase record. -/

/-- C1.  When the account and the title both exist and the title is not
yet owned, `add_show_to_user` succeeds; the charge is the title's stored
price exactly when the title is `Premium` and the account `Basic` and 0
otherwise; the title id is appended to the owned list, cumulative spend
grows by exactly the charge, and a BUYS row dated `today` is inserted if
and only if the charge is positive. -/
theorem acquireTitle_charge_spend_record (db : DB) (uid sid today : Nat)
    (c : Customer) (s : ShowRow)
    (hc : findCustomer db uid = some c)
    (hs : findShow db sid = some s)
    (hnot : sid ∉ c.shows) :
    (add_show_to_user db uid sid today).2 = .ok () ∧
    findCustomer (add_show_to_user db uid sid today).1 uid =
      some { c with
        shows := c.shows ++ [sid],
        total_spent := c.total_spent +
          (if s.access_group = "Premium" ∧ c.subscription_level = "Basic"
           then s.cost_to_buy.getD 0 else 0) } ∧
    (add_show_to_user db uid sid today).1.buys =
      (if 0 < (if s.access_group = "Premium" ∧ c.subscription_level = "Basic"
               then s.cost_to_buy.getD 0 else 0)
       then db.buys ++ [{ user_id := uid, show_id := sid, buy_date := today,
                          cost := if s.access_group = "Premium" ∧ c.subscription_level = "Basic"
                                  then s.cost_to_buy.getD 0 else 0 }]
       else db.buys) := by
  have hcost : acquisition_cost s c =
      (if s.access_group = "Premium" ∧ c.subscription_level = "Basic"
       then s.cost_to_buy.getD 0 else 0) := rfl
  simp only [add_show_to_user, hc, hs, if_neg hnot, ← hcost]
  refine ⟨?_, ?_, ?_⟩
  · by_cases h0 : 0 < acquisition_cost s c <;> simp [h0]
  · have hfind := findCustomer_updateCustomer db uid
      (fun c0 => { c0 with
        shows := c0.shows ++ [sid],
        total_spent := c0.total_spent + acquisition_cost s c })
      (fun c0 => rfl)
    rw [hc] at hfind
    by_cases h0 : 0 < acquisition_cost s c <;>
      simpa [h0, findCustomer] using hfind
  · by_cases h0 : 0 < acquisition_cost s c <;>
      simp [h0, updateCustomer]

/-!  C4: repeated acquisition is a pure `Conflict`. -/

/-- C4.  Acquiring a title already in the owned list fails with the
conflict message and returns the store exactly as it was: owned sets,
spend and purchase records are untouched. -/
theorem acquireTitle_conflict_frame (db : DB) (uid sid today : Nat)
    (c : Customer) (s : ShowRow)
    (hc : findCustomer db uid = some c)
    (hs : findShow db sid = some s)
    (hmem : sid ∈ c.shows) :
    add_show_to_user db uid sid today =
      (db, .err "Show already added to your collection") := by
  simp [add_show_to_user, hc, hs, hmem]

/-!  C2: subscription-change pricing. -/

/-- C2.  For an existing account the charge is 80 exactly on the
`Basic` to `Premium` transition and 0 on every other transition
(including downgrades and no-ops), the charge is added to cumulative
spend, and the call succeeds; for a missing account the call fails with
the not-found message and changes nothing. -/
theorem changeTier_pricing (db : DB) (uid : Nat) (level : String) :
    (∀ c, findCustomer db uid = some c →
      (update_subscription db uid level).2 =
        .ok (if c.subscription_level = "Basic" ∧ level = "Premium" then (80 : ℚ) else 0) ∧
      findCustomer (update_subscription db uid level).1 uid =
        some { c with
          subscription_level := level,
          total_spent := c.total_spent +
            (if c.subscription_level = "Basic" ∧ level = "Premium" then (80 : ℚ) else 0) }) ∧
    (findCustomer db uid = none →
      update_subscription db uid level = (db, .err "User not found")) := by
  constructor
  · intro c hc
    refine ⟨by simp [update_subscription, hc], ?_⟩
    have hfind := findCustomer_updateCustomer db uid
      (fun c0 => { c0 with
        subscription_level := level,
        total_spent := c0.total_spent +
          (if c.subscription_level = "Basic" ∧ level = "Premium"
           then (80 : ℚ) else 0) })
      (fun c0 => rfl)
    rw [hc] at hfind
    simpa [update_subscription, hc] using hfind
  · intro hc
    simp [update_subscription, hc]

/-!  C3: command dispatch surface. -/

/-- C3 counterexample.  The internal helper `"_update_statistics_sync"`
is not one of the public store/aggregation commands, yet the dispatcher
resolves it instead of answering with the unknown-command failure: the
lookup is reflective, not a public allow-list. -/
theorem dispatch_resolves_internal_helper :
    dispatch "_update_statistics_sync" =
      DispatchResult.resolved "_update_statistics_sync" ∧
    "_update_statistics_sync" ∉ publicCommandNames := by
  constructor
  · decide
  · decide

/-- C3 amended.  Dispatch is a reflective lookup over the attribute
names of the API object: a name yields the unknown-command failure
exactly when it matches no attribute, and the internal helper
`_update_statistics_sync` is itself resolvable. -/
theorem dispatch_reflective_lookup :
    (∀ cmd : String,
      dispatch cmd = DispatchResult.unknownCmd cmd ↔ cmd ∉ efapiAttributeNames) ∧
    dispatch "_update_statistics_sync" =
      DispatchResult.resolved "_update_statistics_sync" := by
  constructor
  · intro cmd
    unfold dispatch
    by_cases h : cmd ∈ efapiAttributeNames <;> simp [h]
  · decide

/-!  C7: register then authenticate. -/

/-- C7.  When neither the username nor the email is taken, `create_user`
succeeds returning the fresh account id, and `authenticate_user` with
the same username and secret then succeeds and returns a profile
carrying that same id. -/
theorem register_then_authenticate (db : DB) (u e p level : String) (m : Bool)
    (salt : String) (hashFn : String → String → String)
    (hfresh : db.customers.any (fun c => c.username == u || c.email == e) = false) :
    ∃ fee, (create_user db u e p level m salt hashFn).2 = .ok (db.next_user_id, fee) ∧
      ∃ c, authenticate_user (create_user db u e p level m salt hashFn).1 u p hashFn =
             .ok c ∧
        c.user_id = db.next_user_id := by
  have hnone : db.customers.find? (fun c => c.username == u) = none := by
    rw [List.find?_eq_none]
    intro x hx
    have := (List.any_eq_false.mp hfresh) x hx
    simp only [Bool.or_eq_true, not_or] at this
    exact this.1
  refine ⟨subscription_cost level, ?_, ?_⟩
  · simp [create_user, hfresh]
  · refine ⟨⟨db.next_user_id, u, e, hashFn p salt, salt, level,
      subscription_cost level, "", [], m⟩, ?_, rfl⟩
    simp only [create_user, hfresh, Bool.false_eq_true, if_false,
      authenticate_user, List.find?_append, hnone, Option.none_or]
    simp [List.find?]

/-!  C9: registration fee depends only on the exact string "Basic". -/

/-- C9.  For a fresh (username, email) pair, the initial cumulative
spend recorded by `create_user` is 30 exactly when the tier argument is
the exact string `"Basic"`, and 80 for every other string (including
invalid tier names and the empty string). -/
theorem register_fee_basic_only (db : DB) (u e p level : String) (m : Bool)
    (salt : String) (hashFn : String → String → String)
    (hfresh : db.customers.any (fun c => c.username == u || c.email == e) = false) :
    (level ≠ "Basic" →
      (create_user db u e p level m salt hashFn).2 = .ok (db.next_user_id, 80) ∧
      ∃ row, (create_user db u e p level m salt hashFn).1.customers =
               db.customers ++ [row] ∧
        row.total_spent = 80) ∧
    (level = "Basic" →
      (create_user db u e p level m salt hashFn).2 = .ok (db.next_user_id, 30) ∧
      ∃ row, (create_user db u e p level m salt hashFn).1.customers =
               db.customers ++ [row] ∧
        row.total_spent = 30) := by
  constructor
  · intro hlvl
    refine ⟨by simp [create_user, hfresh, subscription_cost, hlvl],
      ⟨db.next_user_id, u, e, hashFn p salt, salt, level,
        subscription_cost level, "", [], m⟩, ?_, ?_⟩
    · simp [create_user, hfresh]
    · simp [subscription_cost, hlvl]
  · intro hlvl
    refine ⟨by simp [create_user, hfresh, subscription_cost, hlvl],
      ⟨db.next_user_id, u, e, hashFn p salt, salt, level,
        subscription_cost level, "", [], m⟩, ?_, ?_⟩
    · simp [create_user, hfresh]
    · simp [subscription_cost, hlvl]

/-!  C8: title deletion cascades. -/

/-- C8.  Deleting an existing title succeeds; the BUYS table keeps
exactly the purchase records of other titles; the catalog keeps exactly
the other titles; and every account's owned list (assumed
duplicate-free, the stated store invariant) loses the deleted id while
its membership for every other title id is untouched. -/
theorem deleteTitle_cascade (db : DB) (sid : Nat)
    (hex : db.shows.any (fun s => s.show_id == sid) = true)
    (hnodup : ∀ c ∈ db.customers, c.shows.Nodup) :
    (delete_show db sid).2 = .ok () ∧
    (delete_show db sid).1.buys = db.buys.filter (fun b => ¬ b.show_id = sid) ∧
    (delete_show db sid).1.shows = db.shows.filter (fun s => ¬ s.show_id = sid) ∧
    ∃ f : Customer → Customer,
      (delete_show db sid).1.customers = db.customers.map f ∧
      ∀ c ∈ db.customers, sid ∉ (f c).shows ∧
        ∀ t, t ≠ sid → (t ∈ (f c).shows ↔ t ∈ c.shows) := by
  refine ⟨by simp [delete_show, hex], by simp [delete_show, hex],
    by simp [delete_show, hex], ?_⟩
  refine ⟨fun c => if c.shows ≠ [] ∧ sid ∈ c.shows
            then { c with shows := c.shows.erase sid } else c,
    by simp [delete_show, hex], ?_⟩
  intro c hcmem
  by_cases hcond : c.shows ≠ [] ∧ sid ∈ c.shows
  · simp only [if_pos hcond]
    refine ⟨(hnodup c hcmem).not_mem_erase, ?_⟩
    intro t ht
    rw [(hnodup c hcmem).mem_erase_iff]
    simp [ht]
  · simp only [if_neg hcond]
    push_neg at hcond
    constructor
    · by_cases hempty : c.shows = []
      · simp [hempty]
      · exact hcond hempty
    · intro t ht
      trivial

/-!  C10: the recompute never touches the favourite genre of a
non-consenting or empty-collection account. -/

/-- C10.  For every account whose marketing consent is off or whose
owned list is empty, the favourite-genre field after
`_update_statistics_sync` equals its value before. -/
theorem recompute_genre_frame (db : DB) (t n i : Nat)
    (h : i < db.customers.length)
    (hc : (db.customers.get ⟨i, h⟩).marketing_opt_in = false ∨
          (db.customers.get ⟨i, h⟩).shows = []) :
    ∃ h2 : i < (update_statistics_sync db t n).customers.length,
      ((update_statistics_sync db t n).customers.get ⟨i, h2⟩).favourite_genre =
        (db.customers.get ⟨i, h⟩).favourite_genre := by
  have hlen : (update_statistics_sync db t n).customers.length =
      db.customers.length := by
    simp [update_statistics_sync]
  refine ⟨by rw [hlen]; exact h, ?_⟩
  have hget : (update_statistics_sync db t n).customers.get ⟨i, by rw [hlen]; exact h⟩ =
      favUpdate db (db.customers.get ⟨i, h⟩) := by
    simp [update_statistics_sync]
  rw [hget]
  rcases hc with hopt | hshows
  · simp only [List.get_eq_getElem] at hopt
    simp [favUpdate, hopt]
  · simp only [List.get_eq_getElem] at hshows
    simp [favUpdate, hshows]

/-!  C5: idempotence of the statistics recompute. -/

/-- The favourite-genre pass never changes the fields the aggregates
read. -/
lemma favUpdate_fields (db : DB) (c : Customer) :
    (favUpdate db c).user_id = c.user_id ∧
    (favUpdate db c).subscription_level = c.subscription_level ∧
    (favUpdate db c).shows = c.shows ∧
    (favUpdate db c).marketing_opt_in = c.marketing_opt_in := by
  unfold favUpdate
  by_cases hcond : c.marketing_opt_in ∧ c.shows ≠ []
  · simp only [if_pos hcond]
    cases pickFavourite (genreList db c) <;> simp
  · simp [if_neg hcond]

/-- A filter count is stable under a map that preserves the predicate. -/
lemma filter_length_map (l : List Customer) (f : Customer → Customer)
    (p : Customer → Bool) (hp : ∀ x, p (f x) = p x) :
    ((l.map f).filter p).length = (l.filter p).length := by
  induction l with
  | nil => rfl
  | cons a l ih =>
    by_cases ha : p a
    · simp [List.filter_cons, hp, ha, ih]
    · simp [List.filter_cons, hp, ha, ih]

/-- The recompute does not change the Premium subscriber count. -/
lemma premiumCount_update (db : DB) (t n : Nat) :
    premiumCount (update_statistics_sync db t n) = premiumCount db := by
  unfold premiumCount update_statistics_sync
  exact filter_length_map _ _ _
    (fun c => by rw [(favUpdate_fields db c).2.1])

/-- The recompute does not change the Basic subscriber count. -/
lemma basicCount_update (db : DB) (t n : Nat) :
    basicCount (update_statistics_sync db t n) = basicCount db := by
  unfold basicCount update_statistics_sync
  exact filter_length_map _ _ _
    (fun c => by rw [(favUpdate_fields db c).2.1])

/-- The statistics row recomputed after a recompute is unchanged. -/
lemma mkStatRow_update (db : DB) (t n t2 n2 : Nat) :
    mkStatRow (update_statistics_sync db t n) t2 n2 = mkStatRow db t2 n2 := by
  unfold mkStatRow
  rw [premiumCount_update, basicCount_update]
  simp [update_statistics_sync]

/-- The financials row recomputed after a recompute is unchanged. -/
lemma mkFinRow_update (db : DB) (t n t2 n2 : Nat) :
    mkFinRow (update_statistics_sync db t n) t2 n2 = mkFinRow db t2 n2 := by
  unfold mkFinRow
  rw [premiumCount_update, basicCount_update]
  simp [update_statistics_sync, buysRevenue]

/-- Upserting the same row for the same date twice equals upserting it
once. -/
lemma upsertRow_idem {α : Type} (dateOf : α → Nat) (t : Nat) (row : α)
    (hrow : dateOf row = t) (l : List α) :
    upsertRow dateOf t row (upsertRow dateOf t row l) =
      upsertRow dateOf t row l := by
  unfold upsertRow
  by_cases h : l.any (fun r => dateOf r == t) = true
  · simp only [h, if_true]
    have hany2 : (l.map (fun r => if dateOf r == t then row else r)).any
        (fun r => dateOf r == t) = true := by
      rcases List.any_eq_true.mp h with ⟨r, hr, hrt⟩
      refine List.any_eq_true.mpr ⟨row, List.mem_map.mpr ⟨r, hr, by simp [hrt]⟩, by simp [hrow]⟩
    simp only [hany2, if_true, List.map_map]
    refine List.map_congr_left ?_
    intro r _
    by_cases hrt : dateOf r == t
    · simp [Function.comp, hrt, hrow]
    · simp [Function.comp, hrt]
  · simp only [h, Bool.false_eq_true, if_false]
    have hany2 : (l ++ [row]).any (fun r => dateOf r == t) = true := by
      simp [List.any_append, hrow]
    simp only [hany2, if_true, List.map_append]
    have hl : l.map (fun r => if dateOf r == t then row else r) = l := by
      conv_rhs => rw [← List.map_id l]
      refine List.map_congr_left ?_
      intro r hr
      have : ¬ (dateOf r == t) = true := by
        intro hrt
        exact h (List.any_eq_true.mpr ⟨r, hr, hrt⟩)
      simp [this]
    rw [hl]
    simp [hrow]

/-- `genreList` only reads the catalog and the owned list. -/
lemma genreList_congr (db2 db : DB) (c2 c : Customer)
    (h1 : db2.shows = db.shows) (h2 : c2.shows = c.shows) :
    genreList db2 c2 = genreList db c := by
  unfold genreList
  rw [h1, h2]

/-- Applying the favourite-genre pass twice (against any state with the
same catalog) equals applying it once. -/
lemma favUpdate_idem (db2 db : DB) (h : db2.shows = db.shows) (c : Customer) :
    favUpdate db2 (favUpdate db c) = favUpdate db c := by
  by_cases hcond : c.marketing_opt_in ∧ c.shows ≠ []
  · cases hpick : pickFavourite (genreList db c) with
    | none =>
      have hc1 : favUpdate db c = c := by
        unfold favUpdate
        rw [if_pos hcond, hpick]
      rw [hc1]
      unfold favUpdate
      rw [if_pos hcond, genreList_congr db2 db c c h rfl, hpick]
    | some g =>
      have hc1 : favUpdate db c = { c with favourite_genre := g } := by
        unfold favUpdate
        rw [if_pos hcond, hpick]
      rw [hc1]
      unfold favUpdate
      have hcond2 : ({ c with favourite_genre := g } : Customer).marketing_opt_in ∧
          ({ c with favourite_genre := g } : Customer).shows ≠ [] := hcond
      rw [if_pos hcond2,
        genreList_congr db2 db { c with favourite_genre := g } c h rfl, hpick]
  · have hc1 : favUpdate db c = c := by
      unfold favUpdate
      rw [if_neg hcond]
    rw [hc1]
    unfold favUpdate
    rw [if_neg hcond]

/-- Full-state idempotence of `_update_statistics_sync` at a fixed date
and timestamp. -/
lemma update_statistics_sync_idem (db : DB) (t n : Nat) :
    update_statistics_sync (update_statistics_sync db t n) t n =
      update_statistics_sync db t n := by
  have hcust : (update_statistics_sync db t n).customers.map
      (favUpdate (update_statistics_sync db t n)) =
      (update_statistics_sync db t n).customers := by
    have hmap : (update_statistics_sync db t n).customers =
        db.customers.map (favUpdate db) := rfl
    rw [hmap, List.map_map]
    refine List.map_congr_left ?_
    intro c _
    exact favUpdate_idem (update_statistics_sync db t n) db rfl c
  have hstat : upsertRow StatRow.date t
      (mkStatRow (update_statistics_sync db t n) t n)
      (update_statistics_sync db t n).statistics =
      (update_statistics_sync db t n).statistics := by
    rw [mkStatRow_update]
    have hs : (update_statistics_sync db t n).statistics =
        upsertRow StatRow.date t (mkStatRow db t n) db.statistics := rfl
    rw [hs]
    exact upsertRow_idem StatRow.date t (mkStatRow db t n) rfl db.statistics
  have hfin : upsertRow FinRow.date t
      (mkFinRow (update_statistics_sync db t n) t n)
      (update_statistics_sync db t n).financials =
      (update_statistics_sync db t n).financials := by
    rw [mkFinRow_update]
    have hs : (update_statistics_sync db t n).financials =
        upsertRow FinRow.date t (mkFinRow db t n) db.financials := rfl
    rw [hs]
    exact upsertRow_idem FinRow.date t (mkFinRow db t n) rfl db.financials
  conv_lhs => rw [update_statistics_sync]
  rw [hcust, hstat, hfin]

/-- C5.  Running `_update_statistics_sync` twice in succession with no
intervening mutation (same date, same timestamp) leaves the STATISTICS
and FINANCIALS tables — in particular every column of today's rows —
exactly as after the first run. -/
theorem recompute_idempotent_rows (db : DB) (t n : Nat) :
    (update_statistics_sync (update_statistics_sync db t n) t n).statistics =
      (update_statistics_sync db t n).statistics ∧
    (update_statistics_sync (update_statistics_sync db t n) t n).financials =
      (update_statistics_sync db t n).financials := by
  rw [update_statistics_sync_idem]
  exact ⟨rfl, rfl⟩

/-!  C6: encrypt then decrypt is the identity.  The proof is conditional
on the round-trip properties of the external primitives (UTF-8 codec,
Fernet for the fixed derived key, URL-safe base64); the repository's own
composition in `encrypt_data` / `decrypt_data` is what is verified.  A
concrete instantiation of the primitives witnesses satisfiability. -/

/-- C6.  For every plaintext string (empty and control-character strings
included), provided the external primitives round-trip — UTF-8 decode
inverts encode, base64 output is decodable text that re-encodes to the
same bytes, base64 decode inverts encode, and Fernet decrypt inverts
encrypt — `encrypt_data` succeeds and `decrypt_data` of its token
returns exactly the original plaintext. -/
theorem encrypt_decrypt_roundtrip (P : TransportPrims)
    (hUtf : ∀ s, P.bytesDecode (P.strEncode s) = some s)
    (hTokSome : ∀ bs, (P.bytesDecode (P.b64encode bs)).isSome = true)
    (hTok : ∀ bs t, P.bytesDecode (P.b64encode bs) = some t →
      P.strEncode t = P.b64encode bs)
    (hB64 : ∀ bs, P.b64decode (P.b64encode bs) = some bs)
    (hF : ∀ bs, P.fDecrypt (P.fEncrypt bs) = some bs)
    (s : String) :
    ∃ tok, encrypt_data P s = .ok tok ∧ decrypt_data P tok = .ok s := by
  obtain ⟨tok, htok⟩ :=
    Option.isSome_iff_exists.mp (hTokSome (P.fEncrypt (P.strEncode s)))
  refine ⟨tok, ?_, ?_⟩
  · unfold encrypt_data
    rw [htok]
  · unfold decrypt_data
    rw [hTok _ _ htok, hB64]
    simp only [hF, hUtf]

/-- The witness string codec round-trips on every string. -/
lemma witBytesDecode_witStrEncode (s : String) :
    witBytesDecode (witStrEncode s) = some s := by
  unfold witBytesDecode witStrEncode
  have hmk : String.mk ((s.data.map Char.toNat).map Char.ofNat) = s := by
    rw [List.map_map]
    have hid : (Char.ofNat ∘ Char.toNat) = id := funext (fun c => Char.ofNat_toNat c)
    rw [hid, List.map_id]
  rw [hmk]
  simp

/-- Every entry of a witness base64 encoding is a one or a two. -/
lemma witB64encode_mem (bs : List Nat) : ∀ x ∈ witB64encode bs, x = 1 ∨ x = 2 := by
  induction bs with
  | nil =>
    intro x hx
    simp [witB64encode] at hx
  | cons b bs ih =>
    intro x hx
    have hcons : witB64encode (b :: bs) = encNat b ++ witB64encode bs := rfl
    rw [hcons] at hx
    rcases List.mem_append.mp hx with h1 | h2
    · unfold encNat at h1
      rcases List.mem_append.mp h1 with hr | htwo
      · exact Or.inl (List.eq_of_mem_replicate hr)
      · right
        simpa using htwo
    · exact ih x h2

/-- The witness byte decoder accepts every base64 encoding, because the
alphabet {1, 2} survives the character round-trip. -/
lemma witBytesDecode_enc_check (bs : List Nat) :
    (String.mk ((witB64encode bs).map Char.ofNat)).data.map Char.toNat =
      witB64encode bs := by
  show ((witB64encode bs).map Char.ofNat).map Char.toNat = witB64encode bs
  rw [List.map_map]
  conv_rhs => rw [← List.map_id (witB64encode bs)]
  refine List.map_congr_left ?_
  intro x hx
  rcases witB64encode_mem bs x hx with h | h <;> subst h <;> decide

/-- Decoding a base64 token is always possible in the witness codec. -/
lemma witTokSome (bs : List Nat) :
    (witBytesDecode (witB64encode bs)).isSome = true := by
  unfold witBytesDecode
  rw [if_pos (witBytesDecode_enc_check bs)]
  rfl

/-- A decoded base64 token re-encodes to the same bytes. -/
lemma witTok (bs : List Nat) (t : String)
    (h : witBytesDecode (witB64encode bs) = some t) :
    witStrEncode t = witB64encode bs := by
  unfold witBytesDecode at h
  rw [if_pos (witBytesDecode_enc_check bs)] at h
  cases h
  exact witBytesDecode_enc_check bs

/-- Running the unary decoder over a run of ones adds to the counter. -/
lemma witAux_replicate (b : Nat) (rest : List Nat) (cnt : Nat) :
    witB64decodeAux (List.replicate b 1 ++ rest) cnt =
      witB64decodeAux rest (cnt + b) := by
  induction b generalizing cnt with
  | zero => simp [List.replicate]
  | succ k ih =>
    rw [List.replicate_succ, List.cons_append]
    have hstep : witB64decodeAux (1 :: (List.replicate k 1 ++ rest)) cnt =
        witB64decodeAux (List.replicate k 1 ++ rest) (cnt + 1) := rfl
    rw [hstep, ih]
    congr 1
    omega

/-- Decoding an encoding followed by anything peels off the encoded
prefix. -/
lemma witAux_enc (bs rest : List Nat) :
    witB64decodeAux (witB64encode bs ++ rest) 0 =
      (witB64decodeAux rest 0).map (fun l => bs ++ l) := by
  induction bs with
  | nil =>
    show witB64decodeAux rest 0 = _
    cases witB64decodeAux rest 0 <;> simp
  | cons b bs ih =>
    have henc : witB64encode (b :: bs) ++ rest =
        List.replicate b 1 ++ (2 :: (witB64encode bs ++ rest)) := by
      show (encNat b ++ witB64encode bs) ++ rest = _
      unfold encNat
      simp [List.append_assoc]
    rw [henc, witAux_replicate]
    have hstep : witB64decodeAux (2 :: (witB64encode bs ++ rest)) (0 + b) =
        (witB64decodeAux (witB64encode bs ++ rest) 0).map
          (fun l => (0 + b) :: l) := rfl
    rw [hstep, ih]
    cases witB64decodeAux rest 0 <;> simp

/-- The witness base64 codec round-trips. -/
lemma witB64_roundtrip (bs : List Nat) :
    witB64decode (witB64encode bs) = some bs := by
  unfold witB64decode
  rw [← List.append_nil (witB64encode bs), witAux_enc]
  have hnil : witB64decodeAux [] 0 = some [] := rfl
  rw [hnil]
  simp

/-- C6 witness: the round-trip theorem applied to the concrete primitive
pack at a plaintext containing a control character. -/
theorem encrypt_decrypt_roundtrip_witness :
    ∃ tok, encrypt_data witPrims "a\x01" = .ok tok ∧
      decrypt_data witPrims tok = .ok "a\x01" :=
  encrypt_decrypt_roundtrip witPrims
    (fun s => witBytesDecode_witStrEncode s)
    (fun bs => witTokSome bs)
    (fun bs t h => witTok bs t h)
    (fun bs => witB64_roundtrip bs)
    (fun _ => rfl)
    "a\x01"

/-!  Witnesses for the hypothesis-carrying theorems. -/

/-- C1 witness: a Basic account acquiring the Premium title 1 priced 5
is charged 5, owns [1], and gains one purchase record. -/
theorem acquireTitle_charge_spend_record_witness :
    (add_show_to_user sampleDB 1 1 0).2 = .ok () ∧
    findCustomer (add_show_to_user sampleDB 1 1 0).1 1 =
      some { sampleCustomer with
        shows := sampleCustomer.shows ++ [1],
        total_spent := sampleCustomer.total_spent +
          (if sampleShow.access_group = "Premium" ∧
              sampleCustomer.subscription_level = "Basic"
           then sampleShow.cost_to_buy.getD 0 else 0) } ∧
    (add_show_to_user sampleDB 1 1 0).1.buys =
      (if 0 < (if sampleShow.access_group = "Premium" ∧
                  sampleCustomer.subscription_level = "Basic"
               then sampleShow.cost_to_buy.getD 0 else 0)
       then sampleDB.buys ++ [⟨1, 1, 0,
         if sampleShow.access_group = "Premium" ∧
            sampleCustomer.subscription_level = "Basic"
         then sampleShow.cost_to_buy.getD 0 else 0⟩]
       else sampleDB.buys) :=
  acquireTitle_charge_spend_record sampleDB 1 1 0 sampleCustomer sampleShow
    (by decide) (by decide) (by decide)

/-- C2 witness: upgrading the Basic sample account to Premium charges
exactly 80 and adds it to the account's spend. -/
theorem changeTier_pricing_witness :
    (update_subscription sampleDB 1 "Premium").2 =
      .ok (if sampleCustomer.subscription_level = "Basic" ∧
              ("Premium" : String) = "Premium" then (80 : ℚ) else 0) ∧
    findCustomer (update_subscription sampleDB 1 "Premium").1 1 =
      some { sampleCustomer with
        subscription_level := "Premium",
        total_spent := sampleCustomer.total_spent +
          (if sampleCustomer.subscription_level = "Basic" ∧
              ("Premium" : String) = "Premium" then (80 : ℚ) else 0) } :=
  (changeTier_pricing sampleDB 1 "Premium").1 sampleCustomer (by decide)

/-- C4 witness: the owner of title 1 acquiring it again gets the
conflict failure and an unchanged store. -/
theorem acquireTitle_conflict_frame_witness :
    add_show_to_user sampleDB 2 1 0 =
      (sampleDB, .err "Show already added to your collection") :=
  acquireTitle_conflict_frame sampleDB 2 1 0 sampleOwner sampleShow
    (by decide) (by decide) (by decide)

/-- C7 witness: registering a fresh user then authenticating with the
same secret succeeds and returns the fresh id 3. -/
theorem register_then_authenticate_witness :
    ∃ fee, (create_user sampleDB "carol" "carol@x.com" "pw" "Basic" false
        "s9" witHash).2 = .ok (sampleDB.next_user_id, fee) ∧
      ∃ c, authenticate_user
          (create_user sampleDB "carol" "carol@x.com" "pw" "Basic" false
            "s9" witHash).1 "carol" "pw" witHash = .ok c ∧
        c.user_id = sampleDB.next_user_id :=
  register_then_authenticate sampleDB "carol" "carol@x.com" "pw" "Basic"
    false "s9" witHash (by decide)

/-- C8 witness: deleting title 1 from the sample store. -/
theorem deleteTitle_cascade_witness :
    (delete_show sampleDB 1).2 = .ok () ∧
    (delete_show sampleDB 1).1.buys =
      sampleDB.buys.filter (fun b => ¬ b.show_id = 1) ∧
    (delete_show sampleDB 1).1.shows =
      sampleDB.shows.filter (fun s => ¬ s.show_id = 1) ∧
    ∃ f : Customer → Customer,
      (delete_show sampleDB 1).1.customers = sampleDB.customers.map f ∧
      ∀ c ∈ sampleDB.customers, 1 ∉ (f c).shows ∧
        ∀ t, t ≠ 1 → (t ∈ (f c).shows ↔ t ∈ c.shows) :=
  deleteTitle_cascade sampleDB 1 (by decide) (by decide)

/-- C9 witness: registering with the unknown tier string "Gold" charges
the Premium fee 80. -/
theorem register_fee_basic_only_witness :
    (create_user sampleDB "carol" "carol@x.com" "pw" "Gold" false
        "s9" witHash).2 = .ok (sampleDB.next_user_id, 80) ∧
    ∃ row, (create_user sampleDB "carol" "carol@x.com" "pw" "Gold" false
        "s9" witHash).1.customers = sampleDB.customers ++ [row] ∧
      row.total_spent = 80 :=
  (register_fee_basic_only sampleDB "carol" "carol@x.com" "pw" "Gold" false
    "s9" witHash (by decide)).1 (by decide)

/-- C10 witness: the non-consenting sample account keeps its favourite
genre across a recompute. -/
theorem recompute_genre_frame_witness :
    ∃ h2 : 0 < (update_statistics_sync sampleDB 0 0).customers.length,
      ((update_statistics_sync sampleDB 0 0).customers.get ⟨0, h2⟩).favourite_genre =
        (sampleDB.customers.get ⟨0, by decide⟩).favourite_genre :=
  recompute_genre_frame sampleDB 0 0 0 (by decide) (by decide)
